import Mathlib

/-!
Shallow embedding of the IYS bulk consent uploader
(`src/iys_uploader.py`, class `IYSConsentUploader`), covering the
submission pipeline `process_dataframe` and its helpers
(`format_phone_number`, deduplication, consent-list construction,
polling and reconciliation), together with theorems settling the
frozen claims about the natural-language specification.

Strings are modelled as Lean `String`s; the Python `str` methods used
by the source (`strip`, `endswith`, `startswith`, `lower`, `upper`,
`len`, slicing) are given explicit executable models on the
character-list representation (`String.data`), so every definition
evaluates by kernel reduction.
-/

namespace IYS

/-- Python `str.strip()` whitespace characters (ASCII part; the source
never feeds non-ASCII whitespace). -/
def isPySpace (c : Char) : Bool :=
  decide (c = ' ') || decide (c = '\t') || decide (c = '\n') ||
  decide (c = '\r') || decide (c = '\x0b') || decide (c = '\x0c')

/-- `listStarts pat l` holds when `pat` is an initial segment of `l`. -/
def listStarts : List Char → List Char → Bool
  | [], _ => true
  | _ :: _, [] => false
  | p :: ps, c :: cs => decide (p = c) && listStarts ps cs

/-- Python `s.strip()`. -/
def pyStrip (s : String) : String :=
  ⟨((s.data.dropWhile isPySpace).reverse.dropWhile isPySpace).reverse⟩

/-- Python `s.startswith(pat)`. -/
def pyStartsWith (s pat : String) : Bool :=
  listStarts pat.data s.data

/-- Python `s.endswith(pat)`. -/
def pyEndsWith (s pat : String) : Bool :=
  listStarts pat.data.reverse s.data.reverse

/-- Python `s[:-n]` for `n ≤ len(s)` (and `""` when `n` exceeds the
length, as in Python). -/
def pyDropRight (s : String) (n : Nat) : String :=
  ⟨s.data.take (s.data.length - n)⟩

/-- Python `s.lower()` (ASCII case mapping; the statuses compared in the
source are ASCII). -/
def pyLower (s : String) : String :=
  ⟨s.data.map Char.toLower⟩

/-- Python `s.upper()` (ASCII case mapping; consent types in the source
data are ASCII). -/
def pyUpper (s : String) : String :=
  ⟨s.data.map Char.toUpper⟩

/-- Python `len(s)`. -/
def pyLen (s : String) : Nat :=
  s.data.length

/-- Source `iys_uploader.py` lines 64-66: strip a trailing `".0"`
(float-conversion artefact) if present. -/
def stripDot0 (s : String) : String :=
  if pyEndsWith s ".0" then pyDropRight s 2 else s

/-- Source `iys_uploader.py` lines 61-77, `format_phone_number`:
`str(phone).strip()`, drop a `".0"` suffix, then prefix `+` / `+90`
following the branch structure of the source. -/
def format_phone_number (phone : String) : String :=
  let ps := stripDot0 (pyStrip phone)
  if pyStartsWith ps "+" then ps
  else if pyStartsWith ps "90" then "+" ++ ps
  else if pyLen ps = 10 then "+90" ++ ps
  else "+" ++ ps

/-- One input row of the uploaded table, after `app.py` reads the CSV
with `dtype={'ALICI': str}`.  `izinTuru` and `izinKaynagi` model the
cell as `none` for a missing value (pandas `NaN`) and `some s` for the
textual cell, matching `str(row[...]) if pd.notna(row[...]) else ''`
in `process_dataframe`.  `onay` models `int(row['ONAY(1)-RET(0)'])`. -/
structure Row where
  alici : String
  onay : Int
  izinTarihi : String
  izinTuru : Option String
  izinKaynagi : Option String
deriving DecidableEq, Repr

/-- One element of the JSON array submitted to the registry
(`consent_list.append({...})`, source lines 139-146). -/
structure Consent where
  type : String
  status : String
  source : String
  recipient : String
  recipientType : String
  consentDate : String
deriving DecidableEq, Repr

/-- One element of the registry status response
(`{index, status, error?}`).  `status = none` models a missing
`"status"` key (`item.get("status", "")`), `index = none` a missing
`"index"` key (`item.get('index', -1)`), and `errorMessage = none` a
missing `error.message` (`item.get('error', {}).get('message', ...)`). -/
structure StatusItem where
  status : Option String
  index : Option Int
  errorMessage : Option String
deriving DecidableEq, Repr

/-- An exact rational value `num / den`, used to model the float
progress values of the source without floating point; the values
appearing in the source are all exactly representable. -/
structure Frac where
  num : Nat
  den : Nat
deriving DecidableEq, Repr

/-- One yielded progress dictionary
`{'status': ..., 'message': ..., 'progress': ...}`.  `progress = none`
models a yield without a `'progress'` key (the per-record failure
yield at source line 191).  The Python progress values are float
literals; they are modelled exactly as fractions. -/
structure Event where
  status : String
  message : String
  progress : Option Frac
deriving DecidableEq, Repr

/-- A network round-trip performed by the pipeline: the OAuth2 token
exchange (`get_token`), a consent submission (`add_consents`, carrying
its JSON payload), or a status poll (`check_consent_status`). -/
inductive NetCall where
  | token
  | submit (payload : List Consent)
  | pollStatus (requestId : String)
deriving DecidableEq, Repr

/-- One observable step of a `process_dataframe` run: a yielded event
or a network call, in program order. -/
inductive Step where
  | ev (e : Event)
  | net (c : NetCall)
deriving DecidableEq, Repr

/-- The environment a run interacts with: whether the token exchange
succeeds, the `requestId` the registry returns on submission, and the
JSON body of the `i`-th status poll (`none` models a non-list
response, `some items` the per-item status array). -/
structure Env where
  tokenOk : Bool
  requestId : String
  statusResponses : Nat → Option (List StatusItem)

/-- The deduplication key of `df.drop_duplicates(subset=['ALICI',
'IZIN TURU'], keep='last')` (source line 123).  pandas treats two
`NaN` cells as equal in `drop_duplicates`, matching `Option` equality. -/
def rowKey (r : Row) : String × Option String :=
  (r.alici, r.izinTuru)

/-- `df.drop_duplicates(subset=['ALICI', 'IZIN TURU'], keep='last')`:
a row survives iff no later row has the same key; survivors keep their
original positions. -/
def dedupKeepLast : List Row → List Row
  | [] => []
  | r :: rs =>
    if rs.any (fun s => decide (rowKey s = rowKey r)) then dedupKeepLast rs
    else r :: dedupKeepLast rs

/-- Numeric value of a digit character. -/
def digitVal (c : Char) : Nat := c.toNat - 48

/-- Gregorian leap year. -/
def isLeap (y : Nat) : Bool :=
  (y % 4 == 0 && y % 100 != 0) || y % 400 == 0

/-- Days in a month of the Gregorian calendar. -/
def daysInMonth (y m : Nat) : Nat :=
  if m = 2 then (if isLeap y then 29 else 28)
  else if m = 4 || m = 6 || m = 9 || m = 11 then 30
  else 31

/-- `pd.to_datetime(x, format='%d-%m-%Y %H:%M:%S').strftime('%Y-%m-%d
%H:%M:%S')` (source line 145): strict parse of `DD-MM-YYYY HH:MM:SS`
against the real calendar, re-emitted as `YYYY-MM-DD HH:MM:SS`;
`none` models the `ValueError` pandas raises on malformed input. -/
def parseConsentDate (s : String) : Option String :=
  match s.data with
  | [d1, d2, '-', m1, m2, '-', y1, y2, y3, y4, ' ',
     h1, h2, ':', n1, n2, ':', s1, s2] =>
    if [d1, d2, m1, m2, y1, y2, y3, y4, h1, h2, n1, n2, s1, s2].all
        Char.isDigit then
      let day := digitVal d1 * 10 + digitVal d2
      let mon := digitVal m1 * 10 + digitVal m2
      let yr := digitVal y1 * 1000 + digitVal y2 * 100 +
                digitVal y3 * 10 + digitVal y4
      let hh := digitVal h1 * 10 + digitVal h2
      let mm := digitVal n1 * 10 + digitVal n2
      let ss := digitVal s1 * 10 + digitVal s2
      if 1 ≤ mon && mon ≤ 12 && 1 ≤ day && day ≤ daysInMonth yr mon &&
         hh ≤ 23 && mm ≤ 59 && ss ≤ 59 then
        some ⟨[y1, y2, y3, y4, '-', m1, m2, '-', d1, d2, ' ',
               h1, h2, ':', n1, n2, ':', s1, s2]⟩
      else none
    else none
  | _ => none

/-- The dictionary appended to `consent_list` for one surviving row
(source lines 139-146), given the already-parsed consent date. -/
def mkConsent (r : Row) (typ cd : String) : Consent :=
  { type := pyUpper typ
    status := if r.onay = 1 then "ONAY" else "RET"
    source := r.izinKaynagi.getD ""
    recipient := format_phone_number r.alici
    recipientType := "BIREYSEL"
    consentDate := cd }

/-- The `for _, row in df_deduplicated.iterrows()` loop building
`consent_list` (source lines 129-146): rows with an empty coerced
`IZIN TURU` are skipped; an unparseable `IZIN TARIHI` raises, which
aborts the whole construction (`none`). -/
def buildConsents : List Row → Option (List Consent)
  | [] => some []
  | r :: rs =>
    let typ := r.izinTuru.getD ""
    if typ = "" then buildConsents rs
    else
      match parseConsentDate r.izinTarihi with
      | none => none
      | some cd => (buildConsents rs).map (fun cs => mkConsent r typ cd :: cs)

/-- `df_deduplicated['ALICI'].tolist()` (source line 175). -/
def recipient_list_of (dedup : List Row) : List String :=
  dedup.map (fun r => r.alici)

/-- Source line 166: an item is being processed iff its status,
lower-cased, is `"enqueue"` or `"processing"`. -/
def isProcessingItem (it : StatusItem) : Bool :=
  decide (pyLower (it.status.getD "") = "enqueue") ||
  decide (pyLower (it.status.getD "") = "processing")

/-- Source lines 164-168: the poll attempt is terminal iff the response
is a list (`some`), non-empty (Python truthiness), and no item is being
processed. -/
def pollCompleteResp : Option (List StatusItem) → Bool
  | some items => !items.isEmpty && !items.any isProcessingItem
  | none => false

/-- Source line 185: an item counts as a success iff its status,
lower-cased, is `"success"` or `"completed"`. -/
def classifySuccess (it : StatusItem) : Bool :=
  decide (pyLower (it.status.getD "") = "success") ||
  decide (pyLower (it.status.getD "") = "completed")

/-- Source lines 179-183: the recipient displayed for a status item:
the `ALICI` of the post-deduplication row at `item.get('index', -1)`
when that index is in bounds, formatted through
`format_phone_number`; the placeholder otherwise. -/
def itemRecipient (recips : List String) (it : StatusItem) : String :=
  let idx : Int := it.index.getD (-1)
  if 0 ≤ idx ∧ idx < (recips.length : Int) then
    format_phone_number (recips.getD idx.toNat "")
  else "Bilinmeyen Alıcı"

/-- Source lines 171-188: the `(success_count, failure_count)` pair
accumulated over the status items. -/
def reconcileCounts (items : List StatusItem) : Nat × Nat :=
  items.foldl
    (fun p it => if classifySuccess it then (p.1 + 1, p.2) else (p.1, p.2 + 1))
    (0, 0)

/-- The `'error'` yield for one failed item (source lines 189-191). -/
def failEvent (recips : List String) (it : StatusItem) : Event :=
  { status := "error"
    message := "Alıcı " ++ itemRecipient recips it ++ " (Sıra #" ++
               toString (it.index.getD (-1)) ++ ") başarısız: " ++
               it.errorMessage.getD "Bilinmeyen hata."
    progress := none }

/-- Yield at source line 116 (token exchange failed). -/
def authFailEvent : Event :=
  ⟨"error", "IYS kimlik doğrulaması başarısız. Lütfen bilgileri kontrol edin.",
   some ⟨0, 1⟩⟩

/-- Yield at source line 119. -/
def prepInfoEvent : Event :=
  ⟨"info", "İzin verileri hazırlanıyor...", some ⟨1, 10⟩⟩

/-- Yield at source line 127 (duplicates removed). -/
def dupWarnEvent (n : Nat) : Event :=
  ⟨"warning",
   toString n ++ " adet tekrar eden kayıt bulundu ve listeden kaldırıldı.",
   some ⟨3, 20⟩⟩

/-- Yield at source line 149 (no valid record to upload). -/
def noValidEvent : Event :=
  ⟨"warning", "Yüklenecek geçerli bir kayıt bulunamadı.", some ⟨1, 1⟩⟩

/-- Yield at source line 152. -/
def sendingInfoEvent (n : Nat) : Event :=
  ⟨"info", toString n ++ " adet izin isteği gönderiliyor...", some ⟨3, 10⟩⟩

/-- Yield at source line 154 (submission accepted). -/
def submitOkEvent (rid : String) : Event :=
  ⟨"success", "İstek başarıyla gönderildi. Talep ID: " ++ rid, some ⟨1, 2⟩⟩

/-- Yield at source line 160 for 0-based attempt `i`; the Python
progress `0.5 + (i + 1) * (0.5 / 12)` is modelled exactly. -/
def attemptInfoEvent (i : Nat) : Event :=
  ⟨"info",
   "Sonuçlar kontrol ediliyor... (Deneme " ++ toString (i + 1) ++ "/12)",
   some ⟨13 + i, 24⟩⟩

/-- Yield at source line 169 (terminal status observed). -/
def processingResultsEvent : Event :=
  ⟨"info", "İşlem tamamlandı, sonuçlar işleniyor...", some ⟨9, 10⟩⟩

/-- Yields at source lines 193-195 (aggregate tally). -/
def summaryEvent (sc fc : Nat) : Event :=
  ⟨if fc = 0 then "success" else "warning",
   "İşlem tamamlandı. Başarılı: " ++ toString sc ++ ", Başarısız: " ++
     toString fc ++ ".",
   some ⟨1, 1⟩⟩

/-- Yield at source line 196. -/
def completeEvent : Event :=
  ⟨"complete", "Tüm işlemler bitti.", some ⟨1, 1⟩⟩

/-- Yield at source line 199 (attempt budget exhausted). -/
def timeoutEvent : Event :=
  ⟨"warning", "Sonuç beklenenden uzun sürdü. Lütfen IYS panelinden kontrol edin.",
   some ⟨1, 1⟩⟩

/-- The yield produced by the outer `except Exception` handler (source
lines 205-207) when `pd.to_datetime` raises on an unparseable
timestamp.  Python appends `str(e)` (pandas' message); the embedding
models that registry-independent text as a fixed marker. -/
def unexpectedErrorEvent : Event :=
  ⟨"error", "Beklenmedik bir hata oluştu: zaman damgası biçimi geçersiz",
   some ⟨1, 1⟩⟩

/-- Steps of the terminal-status branch (source lines 169-197): the
processing notice, one `'error'` yield per non-success item in item
order, then the tally and completion yields. -/
def completionSteps (recips : List String) (items : List StatusItem) :
    List Step :=
  Step.ev processingResultsEvent ::
  (items.filterMap fun it =>
    if classifySuccess it then none else some (Step.ev (failEvent recips it))) ++
  [Step.ev (summaryEvent (reconcileCounts items).1 (reconcileCounts items).2),
   Step.ev completeEvent]

/-- The polling loop `for i in range(12)` (source lines 157-199),
started at attempt index `i` with `fuel` attempts left: each attempt
yields its progress notice, performs the status GET, and either
finishes through `completionSteps` or continues; an exhausted budget
yields the timeout warning. -/
def pollLoop (recips : List String) (env : Env) : Nat → Nat → List Step
  | _, 0 => [Step.ev timeoutEvent]
  | i, fuel + 1 =>
    Step.ev (attemptInfoEvent i) :: Step.net (NetCall.pollStatus env.requestId) ::
    match env.statusResponses i with
    | some items =>
      if !items.isEmpty && !items.any isProcessingItem then
        completionSteps recips items
      else pollLoop recips env (i + 1) fuel
    | none => pollLoop recips env (i + 1) fuel

/-- The duplicate-removal warning steps (source lines 122-127). -/
def dedupWarnSteps (rows : List Row) : List Step :=
  if (dedupKeepLast rows).length < rows.length then
    [Step.ev (dupWarnEvent (rows.length - (dedupKeepLast rows).length))]
  else []

/-- `IYSConsentUploader.process_dataframe` (source lines 112-207) as the
ordered list of its observable steps (yields and network calls): token
exchange, preparation notice, deduplication warning, consent-list
construction (an unparseable timestamp aborts through the generic
exception handler), submission, then the polling loop. -/
def process_dataframe (env : Env) (rows : List Row) : List Step :=
  Step.net NetCall.token ::
  if env.tokenOk = false then [Step.ev authFailEvent]
  else
    Step.ev prepInfoEvent ::
    dedupWarnSteps rows ++
    match buildConsents (dedupKeepLast rows) with
    | none => [Step.ev unexpectedErrorEvent]
    | some cl =>
      if cl.isEmpty then [Step.ev noValidEvent]
      else
        Step.ev (sendingInfoEvent cl.length) ::
        Step.net (NetCall.submit cl) ::
        Step.ev (submitOkEvent env.requestId) ::
        pollLoop (recipient_list_of (dedupKeepLast rows)) env 0 12

/-- The yields of a run, in order (what the Streamlit consumer sees). -/
def eventsOf (steps : List Step) : List Event :=
  steps.filterMap fun s => match s with | Step.ev e => some e | _ => none

/-- The network calls of a run, in order. -/
def netOf (steps : List Step) : List NetCall :=
  steps.filterMap fun s => match s with | Step.net c => some c | _ => none

/-- The submission payloads of a run, in order. -/
def submitCalls (steps : List Step) : List (List Consent) :=
  steps.filterMap fun s =>
    match s with | Step.net (NetCall.submit p) => some p | _ => none

/-- The two steps of one (non-terminal) polling attempt: the progress
yield and the status GET. -/
def attemptSteps (env : Env) (i : Nat) : List Step :=
  [Step.ev (attemptInfoEvent i), Step.net (NetCall.pollStatus env.requestId)]

/-- The steps of the polling attempts `i, i+1, ..., i+n-1`. -/
def attemptsRange (env : Env) (i n : Nat) : List Step :=
  ((List.range n).map (fun j => attemptSteps env (i + j))).flatten

/-- The characters the aggregate tally message (source line 193) starts
with; no other yield of the pipeline starts with them. -/
def tallyMarker : List Char :=
  "İşlem tamamlandı. Başarılı:".data

/-- Whether an event is the aggregate success/failure tally. -/
def isTallyEvent (e : Event) : Bool :=
  decide (e.message.data.take tallyMarker.length = tallyMarker)

/-- Second definition following the words of the specification (for
comparison with the code): the spec enumerates the in-progress
statuses as PENDING, ENQUEUE, IN_PROGRESS, case-insensitively. -/
def specInProgress (s : String) : Bool :=
  decide (pyLower s = "pending") || decide (pyLower s = "enqueue") ||
  decide (pyLower s = "in_progress")

/-- Second definition following the words of the specification (for
comparison with the code): dropping the records with an empty coerced
consent type before deduplication. -/
def specDropBeforeDedup (rows : List Row) : List Row :=
  rows.filter (fun r => decide (r.izinTuru.getD "" ≠ ""))

/-- A valid row (spec §8 example, second occurrence). -/
def cexRowValid : Row :=
  { alici := "5459419845", onay := 1, izinTarihi := "20-06-2025 15:00:00",
    izinTuru := some "MESAJ", izinKaynagi := some "HS_WEB" }

/-- The consent record built from `cexRowValid`. -/
def cexConsentValid : Consent :=
  { type := "MESAJ", status := "ONAY", source := "HS_WEB",
    recipient := "+905459419845", recipientType := "BIREYSEL",
    consentDate := "2025-06-20 15:00:00" }

/-- A row whose `IZIN TURU` cell is missing (pandas `NaN`). -/
def cexRowNoType : Row :=
  { alici := "5551112233", onay := 1, izinTarihi := "20-06-2025 14:00:00",
    izinTuru := none, izinKaynagi := none }

/-- A row whose `IZIN TARIHI` is not in `DD-MM-YYYY HH:MM:SS` format. -/
def cexRowBadDate : Row :=
  { alici := "5459419845", onay := 1, izinTarihi := "2025-06-20 14:00:00",
    izinTuru := some "MESAJ", izinKaynagi := some "HS_WEB" }

/-- An environment whose token exchange succeeds and whose status polls
never return a list. -/
def envPollNone : Env :=
  ⟨true, "REQ-1", fun _ => none⟩

/-- An environment whose first poll already reports both items
terminal. -/
def envPollDone : Env :=
  ⟨true, "REQ-1", fun _ =>
    some [⟨some "COMPLETED", some 0, none⟩,
          ⟨some "FAILED", some 1, some "bad number"⟩]⟩

/-- An environment whose every poll reports one item still enqueued. -/
def envPollEnqueue : Env :=
  ⟨true, "REQ-1", fun _ => some [⟨some "ENQUEUE", some 0, none⟩]⟩

/-- 51 rows with pairwise distinct recipients (and so pairwise distinct
deduplication keys), all with a valid consent type and timestamp. -/
def rows51 : List Row :=
  (List.range 51).map fun n =>
    { alici := toString (5000000000 + n), onay := 1,
      izinTarihi := "20-06-2025 14:00:00",
      izinTuru := some "MESAJ", izinKaynagi := some "HS_WEB" }

/-- A status item whose `index` key is missing. -/
def cexBadIndexItem : StatusItem :=
  ⟨some "FAILED", none, some "bad number"⟩

/-- The spec §8 example row with the earlier timestamp, sharing its
deduplication key with `cexRowValid`. -/
def cexRowValidEarly : Row :=
  { alici := "5459419845", onay := 1, izinTarihi := "20-06-2025 14:00:00",
    izinTuru := some "MESAJ", izinKaynagi := some "HS_WEB" }

/-- A status item the registry reports as still pending. -/
def cexPendingItem : StatusItem :=
  ⟨some "PENDING", some 0, none⟩

-- ===================================================================
-- Helper lemmas
-- ===================================================================

theorem strExt {a b : String} (h : a.data = b.data) : a = b := by
  cases a
  cases b
  exact congrArg String.mk h

theorem strDataAppend (a b : String) : (a ++ b).data = a.data ++ b.data := rfl

theorem reconcileCounts_foldl (items : List StatusItem) :
    ∀ p : Nat × Nat,
      ((items.foldl
          (fun p it =>
            if classifySuccess it then (p.1 + 1, p.2) else (p.1, p.2 + 1)) p).1 +
       (items.foldl
          (fun p it =>
            if classifySuccess it then (p.1 + 1, p.2) else (p.1, p.2 + 1)) p).2) =
        p.1 + p.2 + items.length := by
  induction items with
  | nil => intro p; simp
  | cons it rest ih =>
    intro p
    by_cases hc : classifySuccess it = true
    · simp only [List.foldl_cons, hc, if_pos]
      rw [ih]
      simp
      omega
    · simp only [List.foldl_cons, Bool.not_eq_true] at *
      simp only [hc, if_neg, Bool.false_eq_true, not_false_iff]
      rw [ih]
      simp
      omega

-- ===================================================================
-- C9: success_count + failure_count equals the number of items
-- ===================================================================

/-- Claim C9: for every terminal per-item status list processed by the
reconciler, `success_count + failure_count` equals the number of items
returned by the registry for that batch (each item increments exactly
one of the two counters). -/
theorem C9_theorem (items : List StatusItem) :
    (reconcileCounts items).1 + (reconcileCounts items).2 = items.length := by
  have h := reconcileCounts_foldl items (0, 0)
  simpa [reconcileCounts] using h

-- ===================================================================
-- C10: out-of-range registry indices are tolerated
-- ===================================================================

/-- Claim C10: for every registry status item whose index field is
missing, negative, or not less than the length of the
post-deduplication recipient list, reconciliation is total: the
emitted failure event uses the placeholder recipient
`Bilinmeyen Alıcı` and the item is still tallied. -/
theorem C10_theorem (recips : List String) (it : StatusItem)
    (h : it.index = none ∨ it.index.getD (-1) < 0 ∨
         (recips.length : Int) ≤ it.index.getD (-1)) :
    itemRecipient recips it = "Bilinmeyen Alıcı" ∧
    failEvent recips it =
      { status := "error"
        message := "Alıcı " ++ "Bilinmeyen Alıcı" ++ " (Sıra #" ++
                   toString (it.index.getD (-1)) ++ ") başarısız: " ++
                   it.errorMessage.getD "Bilinmeyen hata."
        progress := none } ∧
    (reconcileCounts [it]).1 + (reconcileCounts [it]).2 = 1 := by
  have hrec : itemRecipient recips it = "Bilinmeyen Alıcı" := by
    simp only [itemRecipient]
    rw [if_neg]
    rintro ⟨h0, h1⟩
    rcases h with h | h | h
    · rw [h] at h0
      simp [Option.getD] at h0
    · omega
    · omega
  refine ⟨hrec, ?_, ?_⟩
  · simp only [failEvent, hrec]
  · by_cases hc : classifySuccess it = true <;>
      simp [reconcileCounts, hc]

theorem getLast?_cons_of_ne {α : Type} (a : α) (l : List α) (h : l ≠ []) :
    (a :: l).getLast? = l.getLast? := by
  cases l with
  | nil => exact absurd rfl h
  | cons b t => simp [List.getLast?_cons_cons]

theorem dedupKeepLast_sublist (rows : List Row) :
    (dedupKeepLast rows).Sublist rows := by
  induction rows with
  | nil => simp [dedupKeepLast]
  | cons r rs ih =>
    by_cases h : rs.any (fun s => decide (rowKey s = rowKey r)) = true
    · simp only [dedupKeepLast, h, if_true]
      exact ih.trans (List.sublist_cons_self r rs)
    · rw [Bool.not_eq_true] at h
      simp only [dedupKeepLast, h, Bool.false_eq_true, if_false]
      exact ih.cons₂ r

theorem dedupKeepLast_filter (rows : List Row) (k : String × Option String) :
    (dedupKeepLast rows).filter (fun r => decide (rowKey r = k)) =
      ((rows.filter (fun r => decide (rowKey r = k))).getLast?).toList := by
  induction rows with
  | nil => simp [dedupKeepLast]
  | cons r rs ih =>
    by_cases h : rs.any (fun s => decide (rowKey s = rowKey r)) = true
    · by_cases hk : rowKey r = k
      · have hne : rs.filter (fun r => decide (rowKey r = k)) ≠ [] := by
          rcases List.any_eq_true.mp h with ⟨s, hs, hsk⟩
          rw [decide_eq_true_eq] at hsk
          have hsk2 : rowKey s = k := by rw [hsk, hk]
          exact List.ne_nil_of_mem
            (List.mem_filter.mpr ⟨hs, by simp [hsk2]⟩)
        rw [List.filter_cons_of_pos (by simp [hk]),
          getLast?_cons_of_ne _ _ hne]
        simp only [dedupKeepLast, h, if_true]
        exact ih
      · rw [List.filter_cons_of_neg (by simp [hk])]
        simp only [dedupKeepLast, h, if_true]
        exact ih
    · have hall : ∀ s ∈ rs, rowKey s ≠ rowKey r := by
        intro s hs hcon
        exact h (List.any_eq_true.mpr ⟨s, hs, by simp [hcon]⟩)
      rw [Bool.not_eq_true] at h
      simp only [dedupKeepLast, h, Bool.false_eq_true, if_false]
      by_cases hk : rowKey r = k
      · have hrs : rs.filter (fun r => decide (rowKey r = k)) = [] := by
          rw [List.filter_eq_nil_iff]
          intro s hs
          have : rowKey s ≠ k := by
            rw [← hk]
            exact hall s hs
          simp [this]
        have hds :
            (dedupKeepLast rs).filter (fun r => decide (rowKey r = k)) = [] := by
          rw [ih, hrs]
          rfl
        rw [List.filter_cons_of_pos (by simp [hk]),
          List.filter_cons_of_pos (by simp [hk]), hds, hrs]
        rfl
      · rw [List.filter_cons_of_neg (by simp [hk]),
          List.filter_cons_of_neg (by simp [hk])]
        exact ih

theorem eventsOf_append (a b : List Step) :
    eventsOf (a ++ b) = eventsOf a ++ eventsOf b :=
  List.filterMap_append _ _ _

theorem netOf_append (a b : List Step) :
    netOf (a ++ b) = netOf a ++ netOf b :=
  List.filterMap_append _ _ _

theorem submitCalls_append (a b : List Step) :
    submitCalls (a ++ b) = submitCalls a ++ submitCalls b :=
  List.filterMap_append _ _ _

theorem attemptsRange_succ (env : Env) (i n : Nat) :
    attemptsRange env i (n + 1) =
      attemptSteps env i ++ attemptsRange env (i + 1) n := by
  unfold attemptsRange
  rw [List.range_succ_eq_map, List.map_cons, List.flatten_cons, List.map_map]
  have hf : ((fun j => attemptSteps env (i + j)) ∘ Nat.succ) =
      fun j => attemptSteps env (i + 1 + j) := by
    funext j
    show attemptSteps env (i + Nat.succ j) = attemptSteps env (i + 1 + j)
    congr 1
    omega
  rw [hf]
  rfl

theorem pollLoop_timeout (recips : List String) (env : Env) :
    ∀ fuel i,
      (∀ j, j < fuel → pollCompleteResp (env.statusResponses (i + j)) = false) →
      pollLoop recips env i fuel =
        attemptsRange env i fuel ++ [Step.ev timeoutEvent] := by
  intro fuel
  induction fuel with
  | zero =>
    intro i _
    simp [pollLoop, attemptsRange]
  | succ fuel ih =>
    intro i h
    have h0 : pollCompleteResp (env.statusResponses i) = false := by
      have := h 0 (Nat.succ_pos fuel)
      rwa [Nat.add_zero] at this
    have hshift : ∀ j, j < fuel →
        pollCompleteResp (env.statusResponses (i + 1 + j)) = false := by
      intro j hj
      have := h (j + 1) (by omega)
      rwa [show i + (j + 1) = i + 1 + j by omega] at this
    rw [attemptsRange_succ]
    rcases hr : env.statusResponses i with _ | items
    · simp only [pollLoop, hr]
      rw [ih (i + 1) hshift]
      simp [attemptSteps]
    · rw [hr] at h0
      have hcond : (!items.isEmpty && !items.any isProcessingItem) = false := by
        simpa [pollCompleteResp] using h0
      simp only [pollLoop, hr, hcond, Bool.false_eq_true, if_false]
      rw [ih (i + 1) hshift]
      simp [attemptSteps]

theorem pollLoop_complete (recips : List String) (env : Env) :
    ∀ k fuel i, k < fuel →
      (∀ j, j < k → pollCompleteResp (env.statusResponses (i + j)) = false) →
      ∀ items, env.statusResponses (i + k) = some items →
        pollCompleteResp (some items) = true →
        pollLoop recips env i fuel =
          attemptsRange env i (k + 1) ++ completionSteps recips items := by
  intro k
  induction k with
  | zero =>
    intro fuel i hk hpre items hit hcomp
    cases fuel with
    | zero => omega
    | succ fuel =>
      rw [Nat.add_zero] at hit
      have hcond : (!items.isEmpty && !items.any isProcessingItem) = true := by
        simpa [pollCompleteResp] using hcomp
      simp only [pollLoop, hit, hcond, if_true]
      rfl
  | succ k ih =>
    intro fuel i hk hpre items hit hcomp
    cases fuel with
    | zero => omega
    | succ fuel =>
      have h0 : pollCompleteResp (env.statusResponses i) = false := by
        have := hpre 0 (Nat.succ_pos k)
        rwa [Nat.add_zero] at this
      have hshift : ∀ j, j < k →
          pollCompleteResp (env.statusResponses (i + 1 + j)) = false := by
        intro j hj
        have := hpre (j + 1) (by omega)
        rwa [show i + (j + 1) = i + 1 + j by omega] at this
      have hit2 : env.statusResponses (i + 1 + k) = some items := by
        rwa [show i + 1 + k = i + (k + 1) by omega]
      rw [attemptsRange_succ]
      rcases hr : env.statusResponses i with _ | items0
      · simp only [pollLoop, hr]
        rw [ih fuel (i + 1) (by omega) hshift items hit2 hcomp]
        simp [attemptSteps]
      · rw [hr] at h0
        have hcond : (!items0.isEmpty && !items0.any isProcessingItem) = false := by
          simpa [pollCompleteResp] using h0
        simp only [pollLoop, hr, hcond, Bool.false_eq_true, if_false]
        rw [ih fuel (i + 1) (by omega) hshift items hit2 hcomp]
        simp [attemptSteps]

theorem netOf_attemptsRange (env : Env) :
    ∀ n i, netOf (attemptsRange env i n) =
      List.replicate n (NetCall.pollStatus env.requestId) := by
  intro n
  induction n with
  | zero => intro i; rfl
  | succ n ih =>
    intro i
    rw [attemptsRange_succ, netOf_append, ih]
    rfl

theorem eventsOf_attemptsRange (env : Env) :
    ∀ n i, eventsOf (attemptsRange env i n) =
      (List.range n).map (fun j => attemptInfoEvent (i + j)) := by
  intro n
  induction n with
  | zero => intro i; rfl
  | succ n ih =>
    intro i
    rw [attemptsRange_succ, eventsOf_append, ih,
      List.range_succ_eq_map, List.map_cons, List.map_map]
    have hf : ((fun j => attemptInfoEvent (i + j)) ∘ Nat.succ) =
        fun j => attemptInfoEvent (i + 1 + j) := by
      funext j
      show attemptInfoEvent (i + Nat.succ j) = attemptInfoEvent (i + 1 + j)
      congr 1
      omega
    rw [hf]
    rfl

theorem isTally_attemptInfo (i : Nat) :
    isTallyEvent (attemptInfoEvent i) = false := by
  unfold isTallyEvent attemptInfoEvent
  refine decide_eq_false ?_
  intro h
  rw [strDataAppend, strDataAppend, List.append_assoc] at h
  rw [List.take_append_of_le_length (by decide)] at h
  exact absurd h (by decide)

theorem submitCalls_failSteps (recips : List String) (items : List StatusItem) :
    submitCalls (items.filterMap fun it =>
      if classifySuccess it then none
      else some (Step.ev (failEvent recips it))) = [] := by
  induction items with
  | nil => rfl
  | cons it rest ih =>
    by_cases hc : classifySuccess it = true
    · simp only [List.filterMap_cons, hc, if_true]
      exact ih
    · rw [Bool.not_eq_true] at hc
      simp only [List.filterMap_cons, hc, Bool.false_eq_true, if_false]
      simpa [submitCalls] using ih

theorem submitCalls_completionSteps (recips : List String)
    (items : List StatusItem) :
    submitCalls (completionSteps recips items) = [] := by
  unfold completionSteps
  have h := submitCalls_failSteps recips items
  simp only [submitCalls] at h ⊢
  simp [List.filterMap_append, h]

theorem submitCalls_pollLoop (recips : List String) (env : Env) :
    ∀ fuel i, submitCalls (pollLoop recips env i fuel) = [] := by
  intro fuel
  induction fuel with
  | zero => intro i; rfl
  | succ fuel ih =>
    intro i
    rcases hr : env.statusResponses i with _ | items
    · simp only [pollLoop, hr]
      simpa [submitCalls] using ih (i + 1)
    · by_cases hcond : (!items.isEmpty && !items.any isProcessingItem) = true
      · simp only [pollLoop, hr, hcond, if_true]
        simpa [submitCalls] using submitCalls_completionSteps recips items
      · rw [Bool.not_eq_true] at hcond
        simp only [pollLoop, hr, hcond, Bool.false_eq_true, if_false]
        simpa [submitCalls] using ih (i + 1)

theorem submitCalls_cons_ev (e : Event) (l : List Step) :
    submitCalls (Step.ev e :: l) = submitCalls l := rfl

theorem submitCalls_cons_token (l : List Step) :
    submitCalls (Step.net NetCall.token :: l) = submitCalls l := rfl

theorem submitCalls_cons_submit (p : List Consent) (l : List Step) :
    submitCalls (Step.net (NetCall.submit p) :: l) = p :: submitCalls l := rfl

theorem netOf_cons_ev (e : Event) (l : List Step) :
    netOf (Step.ev e :: l) = netOf l := rfl

theorem netOf_cons_net (c : NetCall) (l : List Step) :
    netOf (Step.net c :: l) = c :: netOf l := rfl

theorem eventsOf_cons_ev (e : Event) (l : List Step) :
    eventsOf (Step.ev e :: l) = e :: eventsOf l := rfl

theorem eventsOf_cons_net (c : NetCall) (l : List Step) :
    eventsOf (Step.net c :: l) = eventsOf l := rfl

theorem submitCalls_dedupWarnSteps (rows : List Row) :
    submitCalls (dedupWarnSteps rows) = [] := by
  unfold dedupWarnSteps
  split <;> rfl

theorem netOf_dedupWarnSteps (rows : List Row) :
    netOf (dedupWarnSteps rows) = [] := by
  unfold dedupWarnSteps
  split <;> rfl

-- ===================================================================
-- C1: no batching — one request carrying the whole list
-- ===================================================================

/-- Claim C1 counterexample: a deduplicated input of 51 records is
submitted as a single request of 51 records, so not every submitted
chunk has length at most 50. -/
theorem C1_counterexample :
    (submitCalls (process_dataframe envPollNone rows51)).map List.length =
      [51] := by decide

/-- Claim C1 (amended): the pipeline does not chunk: whenever the
consent list built from the deduplicated input is non-empty, it is
submitted as exactly one request containing the whole list in order
(so the concatenation of the submitted payloads is that list), with no
bound of 50 on its length. -/
theorem C1_theorem (env : Env) (rows : List Row) (cl : List Consent)
    (htok : env.tokenOk = true)
    (hcl : buildConsents (dedupKeepLast rows) = some cl) (hne : cl ≠ []) :
    submitCalls (process_dataframe env rows) = [cl] ∧
    (submitCalls (process_dataframe env rows)).flatten = cl := by
  have hcly : cl.isEmpty = false := by
    cases cl with
    | nil => exact absurd rfl hne
    | cons c cs => rfl
  have hmain : submitCalls (process_dataframe env rows) = [cl] := by
    simp only [process_dataframe, htok, Bool.true_eq_false, if_false, hcl,
      hcly, Bool.false_eq_true]
    rw [submitCalls_cons_token, submitCalls_append, submitCalls_cons_ev,
      submitCalls_dedupWarnSteps, submitCalls_cons_ev,
      submitCalls_cons_submit, submitCalls_cons_ev,
      submitCalls_pollLoop]
    rfl
  refine ⟨hmain, ?_⟩
  rw [hmain]
  simp

/-- Witness for C1 at the singleton valid row. -/
theorem C1_witness :
    (envPollNone.tokenOk = true ∧
     buildConsents (dedupKeepLast [cexRowValid]) = some [cexConsentValid] ∧
     ([cexConsentValid] : List Consent) ≠ []) ∧
    submitCalls (process_dataframe envPollNone [cexRowValid]) =
      [[cexConsentValid]] :=
  ⟨⟨rfl, by decide, by decide⟩,
   (C1_theorem envPollNone [cexRowValid] [cexConsentValid] rfl (by decide)
     (by decide)).1⟩

-- ===================================================================
-- C5: the token exchange precedes validation
-- ===================================================================

/-- Claim C5 counterexample: a run whose only row carries an
unparseable consent timestamp still performs the token-exchange
network call before the failure is surfaced, so the run does not abort
before any network call. -/
theorem C5_counterexample :
    process_dataframe envPollNone [cexRowBadDate] =
      [Step.net NetCall.token, Step.ev prepInfoEvent,
       Step.ev unexpectedErrorEvent] ∧
    netOf (process_dataframe envPollNone [cexRowBadDate]) =
      [NetCall.token] := by decide

/-- Claim C5 (amended): an unparseable consent timestamp aborts the run
with an error event and nothing is ever submitted (no submit call in
the trace), but the token-exchange network call has already been
performed when the failure is surfaced. -/
theorem C5_theorem (env : Env) (rows : List Row) (htok : env.tokenOk = true)
    (hbad : buildConsents (dedupKeepLast rows) = none) :
    netOf (process_dataframe env rows) = [NetCall.token] ∧
    (process_dataframe env rows).head? = some (Step.net NetCall.token) ∧
    (eventsOf (process_dataframe env rows)).getLast? =
      some unexpectedErrorEvent ∧
    submitCalls (process_dataframe env rows) = [] := by
  have hform : process_dataframe env rows =
      Step.net NetCall.token :: Step.ev prepInfoEvent ::
        (dedupWarnSteps rows ++ [Step.ev unexpectedErrorEvent]) := by
    simp [process_dataframe, htok, hbad]
  rw [hform]
  refine ⟨?_, rfl, ?_, ?_⟩
  · rw [netOf_cons_net, netOf_cons_ev, netOf_append, netOf_dedupWarnSteps]
    rfl
  · unfold dedupWarnSteps
    split <;> simp [eventsOf]
  · rw [submitCalls_cons_token, submitCalls_cons_ev, submitCalls_append,
      submitCalls_dedupWarnSteps]
    rfl

/-- Witness for C5 at the row with the wrongly-ordered date fields. -/
theorem C5_witness :
    (envPollNone.tokenOk = true ∧
     buildConsents (dedupKeepLast [cexRowBadDate]) = none) ∧
    (netOf (process_dataframe envPollNone [cexRowBadDate]) =
       [NetCall.token] ∧
     (process_dataframe envPollNone [cexRowBadDate]).head? =
       some (Step.net NetCall.token) ∧
     (eventsOf (process_dataframe envPollNone [cexRowBadDate])).getLast? =
       some unexpectedErrorEvent ∧
     submitCalls (process_dataframe envPollNone [cexRowBadDate]) = []) :=
  ⟨⟨rfl, by decide⟩, C5_theorem envPollNone [cexRowBadDate] rfl (by decide)⟩

-- ===================================================================
-- C2: in-progress statuses and poll completion
-- ===================================================================

/-- Claim C2 counterexample: the code counts an item as being processed
iff its lower-cased status is `enqueue` or `processing` (source line
166), not the claimed set {PENDING, ENQUEUE, IN_PROGRESS}: a
PENDING-only response is declared complete although the claim calls
PENDING in progress, IN_PROGRESS does not count either, PROCESSING
counts although the claim omits it, and an empty-list response is not
declared complete although no item in it is in progress. -/
theorem C2_counterexample :
    specInProgress "PENDING" = true ∧
    isProcessingItem cexPendingItem = false ∧
    pollCompleteResp (some [cexPendingItem]) = true ∧
    specInProgress "IN_PROGRESS" = true ∧
    isProcessingItem ⟨some "IN_PROGRESS", some 0, none⟩ = false ∧
    specInProgress "PROCESSING" = false ∧
    isProcessingItem ⟨some "PROCESSING", some 0, none⟩ = true ∧
    pollCompleteResp (some []) = false := by decide

/-- Claim C2 (amended): an item counts as in progress iff its status,
compared case-insensitively, is one of ENQUEUE, PROCESSING; the poller
never declares the batch complete from a response containing an
in-progress item, and declares it complete at the first attempt whose
response is a non-empty list with no in-progress item. -/
theorem C2_theorem (env : Env) (recips : List String) (k : Nat)
    (items : List StatusItem) (hk : k < 12)
    (hpre : ∀ j, j < k → pollCompleteResp (env.statusResponses j) = false)
    (hit : env.statusResponses k = some items)
    (hcomp : pollCompleteResp (some items) = true) :
    (∀ it : StatusItem,
      isProcessingItem it = true ↔
        (pyLower (it.status.getD "") = "enqueue" ∨
         pyLower (it.status.getD "") = "processing")) ∧
    (∀ its : List StatusItem, ∀ it ∈ its, isProcessingItem it = true →
      pollCompleteResp (some its) = false) ∧
    pollLoop recips env 0 12 =
      attemptsRange env 0 (k + 1) ++ completionSteps recips items := by
  refine ⟨?_, ?_, ?_⟩
  · intro it
    simp [isProcessingItem]
  · intro its it hmem hproc
    have hany : its.any isProcessingItem = true :=
      List.any_eq_true.mpr ⟨it, hmem, hproc⟩
    simp [pollCompleteResp, hany]
  · exact pollLoop_complete recips env k 12 0 hk
      (fun j hj => by simpa using hpre j hj) items (by simpa using hit) hcomp

/-- Witness for C2 at a first response that is already terminal. -/
theorem C2_witness :
    (envPollDone.statusResponses 0 =
      some [⟨some "COMPLETED", some 0, none⟩,
            ⟨some "FAILED", some 1, some "bad number"⟩] ∧
     pollCompleteResp
       (some [⟨some "COMPLETED", some 0, none⟩,
              ⟨some "FAILED", some 1, some "bad number"⟩]) = true) ∧
    pollLoop [] envPollDone 0 12 =
      attemptsRange envPollDone 0 1 ++
        completionSteps []
          [⟨some "COMPLETED", some 0, none⟩,
           ⟨some "FAILED", some 1, some "bad number"⟩] :=
  ⟨⟨rfl, by decide⟩,
   (C2_theorem envPollDone [] 0
     [⟨some "COMPLETED", some 0, none⟩, ⟨some "FAILED", some 1, some "bad number"⟩]
     (by omega) (fun j hj => absurd hj (Nat.not_lt_zero j)) rfl (by decide)).2.2⟩

theorem eventsOf_failSteps (recips : List String) (items : List StatusItem) :
    eventsOf (items.filterMap fun it =>
      if classifySuccess it then none
      else some (Step.ev (failEvent recips it))) =
    (items.filter (fun it => !classifySuccess it)).map (failEvent recips) := by
  induction items with
  | nil => rfl
  | cons it rest ih =>
    by_cases hc : classifySuccess it = true
    · simp only [List.filterMap_cons, List.filter_cons, hc, if_true,
        Bool.not_true, Bool.false_eq_true, if_false]
      exact ih
    · rw [Bool.not_eq_true] at hc
      simp only [List.filterMap_cons, List.filter_cons, hc, Bool.not_false,
        if_true, Bool.false_eq_true, if_false, List.map_cons]
      rw [eventsOf_cons_ev, ih]

theorem dropWhile_all_false {p : Char → Bool} (l : List Char)
    (h : ∀ c ∈ l, p c = false) : l.dropWhile p = l := by
  cases l with
  | nil => rfl
  | cons a t =>
    rw [List.dropWhile_cons, h a (List.mem_cons_self a t)]
    simp

theorem pyStrip_eq_self {s : String}
    (h : ∀ c ∈ s.data, isPySpace c = false) : pyStrip s = s := by
  apply strExt
  show ((s.data.dropWhile isPySpace).reverse.dropWhile isPySpace).reverse =
    s.data
  rw [dropWhile_all_false s.data h,
    dropWhile_all_false _ (fun c hc => h c (List.mem_reverse.mp hc)),
    List.reverse_reverse]

theorem listStarts_two_false {a b : Char} (l : List Char)
    (h : ∀ c ∈ l, c ≠ b) : listStarts [a, b] l = false := by
  cases l with
  | nil => rfl
  | cons x t =>
    cases t with
    | nil => simp [listStarts]
    | cons y t2 =>
      have hy : ¬(b = y) := fun he => h y (by simp) he.symm
      simp [listStarts, hy]

theorem pyEndsWith_dot0_false {s : String}
    (h : ∀ c ∈ s.data, c ≠ '.') : pyEndsWith s ".0" = false := by
  unfold pyEndsWith
  rw [show (".0" : String).data.reverse = ['0', '.'] from rfl]
  exact listStarts_two_false _ (fun c hc => h c (List.mem_reverse.mp hc))

theorem mem_of_mem_dropWhile {p : Char → Bool} :
    ∀ (l : List Char) (c : Char), c ∈ l.dropWhile p → c ∈ l := by
  intro l
  induction l with
  | nil => intro c h; simp at h
  | cons a t ih =>
    intro c h
    rw [List.dropWhile_cons] at h
    by_cases hp : p a = true
    · rw [if_pos hp] at h
      exact List.mem_cons_of_mem a (ih c h)
    · rw [if_neg hp] at h
      exact h

theorem mem_pyStrip {s : String} {c : Char} (h : c ∈ (pyStrip s).data) :
    c ∈ s.data := by
  have h1 : c ∈ ((s.data.dropWhile isPySpace).reverse.dropWhile
      isPySpace).reverse := h
  rw [List.mem_reverse] at h1
  have h2 := mem_of_mem_dropWhile _ _ h1
  rw [List.mem_reverse] at h2
  exact mem_of_mem_dropWhile _ _ h2

theorem mem_stripDot0 {s : String} {c : Char} (h : c ∈ (stripDot0 s).data) :
    c ∈ s.data := by
  unfold stripDot0 at h
  by_cases he : pyEndsWith s ".0" = true
  · rw [if_pos he] at h
    exact List.take_subset _ _ h
  · rw [if_neg he] at h
    exact h

theorem format_chars (x : String) {c : Char}
    (h : c ∈ (format_phone_number x).data) :
    c = '+' ∨ c = '9' ∨ c = '0' ∨ c ∈ x.data := by
  simp only [format_phone_number] at h
  by_cases h1 : pyStartsWith (stripDot0 (pyStrip x)) "+" = true
  · rw [if_pos h1] at h
    exact Or.inr (Or.inr (Or.inr (mem_pyStrip (mem_stripDot0 h))))
  · rw [if_neg h1] at h
    by_cases h2 : pyStartsWith (stripDot0 (pyStrip x)) "90" = true
    · rw [if_pos h2] at h
      rw [strDataAppend] at h
      rcases List.mem_append.mp h with h | h
      · left
        simpa using h
      · exact Or.inr (Or.inr (Or.inr (mem_pyStrip (mem_stripDot0 h))))
    · rw [if_neg h2] at h
      by_cases h3 : pyLen (stripDot0 (pyStrip x)) = 10
      · rw [if_pos h3] at h
        rw [strDataAppend] at h
        rcases List.mem_append.mp h with h | h
        · have : c = '+' ∨ c = '9' ∨ c = '0' := by simpa using h
          tauto
        · exact Or.inr (Or.inr (Or.inr (mem_pyStrip (mem_stripDot0 h))))
      · rw [if_neg h3] at h
        rw [strDataAppend] at h
        rcases List.mem_append.mp h with h | h
        · left
          simpa using h
        · exact Or.inr (Or.inr (Or.inr (mem_pyStrip (mem_stripDot0 h))))

theorem format_data_plus (x : String) :
    ∃ t, (format_phone_number x).data = '+' :: t := by
  simp only [format_phone_number]
  by_cases h1 : pyStartsWith (stripDot0 (pyStrip x)) "+" = true
  · rw [if_pos h1]
    unfold pyStartsWith at h1
    rw [show ("+" : String).data = ['+'] from rfl] at h1
    cases hd : (stripDot0 (pyStrip x)).data with
    | nil =>
      rw [hd] at h1
      exact absurd h1 (by simp [listStarts])
    | cons c cs =>
      rw [hd] at h1
      simp only [listStarts, Bool.and_true, decide_eq_true_eq] at h1
      exact ⟨cs, by rw [h1]⟩
  · rw [if_neg h1]
    by_cases h2 : pyStartsWith (stripDot0 (pyStrip x)) "90" = true
    · rw [if_pos h2]
      exact ⟨(stripDot0 (pyStrip x)).data, rfl⟩
    · rw [if_neg h2]
      by_cases h3 : pyLen (stripDot0 (pyStrip x)) = 10
      · rw [if_pos h3]
        exact ⟨'9' :: '0' :: (stripDot0 (pyStrip x)).data, rfl⟩
      · rw [if_neg h3]
        exact ⟨(stripDot0 (pyStrip x)).data, rfl⟩

theorem format_fixed_point {y : String}
    (h1 : pyStrip y = y) (h2 : pyEndsWith y ".0" = false)
    (h3 : ∃ t, y.data = '+' :: t) :
    format_phone_number y = y := by
  have hplus : pyStartsWith y "+" = true := by
    obtain ⟨t, ht⟩ := h3
    unfold pyStartsWith
    rw [show ("+" : String).data = ['+'] from rfl, ht]
    simp [listStarts]
  simp only [format_phone_number, h1]
  unfold stripDot0
  rw [h2]
  simp only [Bool.false_eq_true, if_false, hplus, if_true]

theorem digit_props {c : Char} (h : c.isDigit = true) :
    isPySpace c = false ∧ c ≠ '.' ∧ c ≠ '+' := by
  have hne : ∀ d : Char, d.isDigit = false → c ≠ d := by
    intro d hd he
    subst he
    rw [h] at hd
    cases hd
  refine ⟨?_, hne '.' (by decide), hne '+' (by decide)⟩
  unfold isPySpace
  rw [decide_eq_false (hne ' ' (by decide)),
    decide_eq_false (hne '\t' (by decide)),
    decide_eq_false (hne '\n' (by decide)),
    decide_eq_false (hne '\r' (by decide)),
    decide_eq_false (hne '\x0b' (by decide)),
    decide_eq_false (hne '\x0c' (by decide))]
  rfl

theorem format_idem_clean (x : String)
    (hc : ∀ c ∈ x.data, c ≠ '.' ∧ isPySpace c = false) :
    format_phone_number (format_phone_number x) = format_phone_number x := by
  have hy : ∀ c ∈ (format_phone_number x).data,
      c ≠ '.' ∧ isPySpace c = false := by
    intro c h
    rcases format_chars x h with rfl | rfl | rfl | h
    · exact ⟨by decide, by decide⟩
    · exact ⟨by decide, by decide⟩
    · exact ⟨by decide, by decide⟩
    · exact hc c h
  exact format_fixed_point
    (pyStrip_eq_self (fun c h => (hy c h).2))
    (pyEndsWith_dot0_false (fun c h => (hy c h).1))
    (format_data_plus x)

theorem format_local10 (d : String) (hdig : d.data.all Char.isDigit = true)
    (hlen : d.data.length = 10)
    (h90 : listStarts ['9', '0'] d.data = false) :
    format_phone_number d = "+90" ++ d := by
  have hall : ∀ c ∈ d.data, c.isDigit = true :=
    fun c h => List.all_eq_true.mp hdig c h
  have hstrip : pyStrip d = d :=
    pyStrip_eq_self (fun c h => (digit_props (hall c h)).1)
  have hdot : pyEndsWith d ".0" = false :=
    pyEndsWith_dot0_false (fun c h => (digit_props (hall c h)).2.1)
  have hplus : pyStartsWith d "+" = false := by
    unfold pyStartsWith
    rw [show ("+" : String).data = ['+'] from rfl]
    cases hd : d.data with
    | nil =>
      rw [hd] at hlen
      simp at hlen
    | cons c cs =>
      have hmem : c ∈ d.data := by
        rw [hd]
        exact List.mem_cons_self c cs
      have hcne := (digit_props (hall c hmem)).2.2
      have hns : ¬('+' = c) := fun he => hcne he.symm
      simp [listStarts, hns]
  have h90s : pyStartsWith d "90" = false := by
    unfold pyStartsWith
    rw [show ("90" : String).data = ['9', '0'] from rfl]
    exact h90
  simp only [format_phone_number, hstrip]
  unfold stripDot0
  rw [hdot]
  simp only [Bool.false_eq_true, if_false, hplus, h90s]
  rw [if_pos (show pyLen d = 10 from hlen)]

theorem format_already90 (t : String)
    (hdig : t.data.all Char.isDigit = true) :
    format_phone_number ("90" ++ t) = "+90" ++ t ∧
    format_phone_number ("+90" ++ t) = "+90" ++ t := by
  have hall : ∀ c ∈ t.data, c.isDigit = true :=
    fun c h => List.all_eq_true.mp hdig c h
  constructor
  · have hchars : ∀ c ∈ ("90" ++ t).data,
        isPySpace c = false ∧ c ≠ '.' := by
      intro c h
      rw [strDataAppend] at h
      rcases List.mem_append.mp h with h | h
      · have : c = '9' ∨ c = '0' := by simpa using h
        rcases this with rfl | rfl
        · exact ⟨by decide, by decide⟩
        · exact ⟨by decide, by decide⟩
      · have hd := digit_props (hall c h)
        exact ⟨hd.1, hd.2.1⟩
    have hstrip : pyStrip ("90" ++ t) = "90" ++ t :=
      pyStrip_eq_self (fun c h => (hchars c h).1)
    have hdot : pyEndsWith ("90" ++ t) ".0" = false :=
      pyEndsWith_dot0_false (fun c h => (hchars c h).2)
    have hplus : pyStartsWith ("90" ++ t) "+" = false := by
      unfold pyStartsWith
      rw [show ("+" : String).data = ['+'] from rfl,
        show ("90" ++ t).data = '9' :: '0' :: t.data from rfl]
      simp [listStarts]
    have h90s : pyStartsWith ("90" ++ t) "90" = true := by
      unfold pyStartsWith
      rw [show ("90" : String).data = ['9', '0'] from rfl,
        show ("90" ++ t).data = '9' :: '0' :: t.data from rfl]
      simp [listStarts]
    simp only [format_phone_number, hstrip]
    unfold stripDot0
    rw [hdot]
    simp only [Bool.false_eq_true, if_false, hplus, h90s, if_true]
    apply strExt
    rfl
  · have hchars : ∀ c ∈ ("+90" ++ t).data,
        isPySpace c = false ∧ c ≠ '.' := by
      intro c h
      rw [strDataAppend] at h
      rcases List.mem_append.mp h with h | h
      · have : c = '+' ∨ c = '9' ∨ c = '0' := by simpa using h
        rcases this with rfl | rfl | rfl
        · exact ⟨by decide, by decide⟩
        · exact ⟨by decide, by decide⟩
        · exact ⟨by decide, by decide⟩
      · have hd := digit_props (hall c h)
        exact ⟨hd.1, hd.2.1⟩
    exact format_fixed_point
      (pyStrip_eq_self (fun c h => (hchars c h).1))
      (pyEndsWith_dot0_false (fun c h => (hchars c h).2))
      ⟨'9' :: '0' :: t.data, rfl⟩

-- ===================================================================
-- C7: phone normalization
-- ===================================================================

/-- Claim C7 counterexample: phone normalization is not idempotent for
every input: `"1.0.0"` normalizes to `"+1.0"`, whose normalization
strips the remaining `".0"` suffix and yields `"+1"`. -/
theorem C7_counterexample :
    format_phone_number "1.0.0" = "+1.0" ∧
    format_phone_number (format_phone_number "1.0.0") = "+1" ∧
    format_phone_number (format_phone_number "1.0.0") ≠
      format_phone_number "1.0.0" := by decide

/-- Claim C7 (amended): normalization is idempotent for every input
containing no `'.'` and no whitespace (the failures need a doubled
`".0"` artefact or inner whitespace); a bare all-digit 10-digit number
not starting with `90` maps to `+90` followed by exactly its digits;
and a number already prefixed by `90` or `+90` followed by digits maps
to `+90` followed by those digits. -/
theorem C7_theorem :
    (∀ x : String, (∀ c ∈ x.data, c ≠ '.' ∧ isPySpace c = false) →
      format_phone_number (format_phone_number x) = format_phone_number x) ∧
    (∀ d : String, d.data.all Char.isDigit = true → d.data.length = 10 →
      listStarts ['9', '0'] d.data = false →
      format_phone_number d = "+90" ++ d) ∧
    (∀ t : String, t.data.all Char.isDigit = true →
      format_phone_number ("90" ++ t) = "+90" ++ t ∧
      format_phone_number ("+90" ++ t) = "+90" ++ t) :=
  ⟨format_idem_clean, format_local10, format_already90⟩

/-- Witness for C7 at the spec §8 example number. -/
theorem C7_witness :
    (("5459419845" : String).data.all Char.isDigit = true ∧
     ("5459419845" : String).data.length = 10 ∧
     listStarts ['9', '0'] ("5459419845" : String).data = false) ∧
    format_phone_number "5459419845" = "+90" ++ "5459419845" :=
  ⟨⟨by decide, by decide, by decide⟩,
   C7_theorem.2.1 "5459419845" (by decide) (by decide) (by decide)⟩

-- ===================================================================
-- C3: reconciliation maps indices to post-deduplication order
-- ===================================================================

/-- Claim C3 counterexample: with a first deduplicated row whose
consent type is empty, the submitted list holds only the second row,
yet the reconciler maps registry index 0 to the first deduplicated
row, not to the recipient of the record that was submitted at
position 0 — so the post-deduplication order it uses is not "the same
list that was submitted". -/
theorem C3_counterexample :
    buildConsents (dedupKeepLast [cexRowNoType, cexRowValid]) =
      some [cexConsentValid] ∧
    cexConsentValid.recipient = "+905459419845" ∧
    itemRecipient
      (recipient_list_of (dedupKeepLast [cexRowNoType, cexRowValid]))
      ⟨some "FAILED", some 0, some "bad number"⟩ = "+905551112233" ∧
    ("+905551112233" : String) ≠ "+905459419845" := by decide

/-- Claim C3 (amended): the reconciler maps each item's index to the
normalized recipient of the row at that position in post-deduplication
row order — which equals the submitted list only when no row was
dropped for an empty consent type — and classifies an item as
succeeded, case-insensitively, exactly when its status is SUCCESS or
COMPLETED, otherwise yielding a failure event carrying the attached
error detail, one per failed item in item order. -/
theorem C3_theorem :
    (∀ (rows : List Row) (it : StatusItem) (i : Int), it.index = some i →
      0 ≤ i → ∀ hlen : i.toNat < (dedupKeepLast rows).length,
      itemRecipient (recipient_list_of (dedupKeepLast rows)) it =
        format_phone_number
          (((dedupKeepLast rows).get ⟨i.toNat, hlen⟩).alici)) ∧
    (∀ (recips : List String) (items : List StatusItem),
      eventsOf (completionSteps recips items) =
        processingResultsEvent ::
          ((items.filter (fun it => !classifySuccess it)).map
            (failEvent recips) ++
           [summaryEvent (reconcileCounts items).1 (reconcileCounts items).2,
            completeEvent])) ∧
    (∀ it : StatusItem, classifySuccess it = true ↔
      (pyLower (it.status.getD "") = "success" ∨
       pyLower (it.status.getD "") = "completed")) := by
  refine ⟨?_, ?_, ?_⟩
  · intro rows it i hi h0 hlen
    have hlenr : (recipient_list_of (dedupKeepLast rows)).length =
        (dedupKeepLast rows).length := by
      simp [recipient_list_of]
    simp only [itemRecipient, hi, Option.getD_some]
    rw [if_pos ⟨h0, by rw [hlenr]; omega⟩]
    unfold recipient_list_of
    rw [List.getD_eq_getElem _ _ (by simpa using hlen)]
    simp [List.getElem_map]
  · intro recips items
    unfold completionSteps
    rw [eventsOf_append, eventsOf_cons_ev, eventsOf_failSteps]
    simp [eventsOf]
  · intro it
    simp [classifySuccess]

/-- Witness for C3 at registry index 0 over the two-row input whose
first deduplicated row was dropped from the submission. -/
theorem C3_witness :
    ((⟨some "FAILED", some 0, some "bad number"⟩ : StatusItem).index =
        some 0 ∧
     (0 : Int) ≤ 0 ∧
     (0 : Int).toNat < (dedupKeepLast [cexRowNoType, cexRowValid]).length) ∧
    itemRecipient
        (recipient_list_of (dedupKeepLast [cexRowNoType, cexRowValid]))
        ⟨some "FAILED", some 0, some "bad number"⟩ =
      format_phone_number
        (((dedupKeepLast [cexRowNoType, cexRowValid]).get
            ⟨(0 : Int).toNat, by decide⟩).alici) :=
  ⟨⟨rfl, by decide, by decide⟩,
   C3_theorem.1 [cexRowNoType, cexRowValid]
     ⟨some "FAILED", some 0, some "bad number"⟩ 0 rfl (by decide) (by decide)⟩

-- ===================================================================
-- C4: empty consent types are dropped after deduplication
-- ===================================================================

theorem pyUpper_ne_empty {s : String} (h : s ≠ "") : pyUpper s ≠ "" := by
  intro hcon
  apply h
  have hdata : (pyUpper s).data = [] := by rw [hcon]
  simp only [pyUpper, List.map_eq_nil_iff] at hdata
  apply strExt
  rw [hdata]

theorem buildConsents_spec (l : List Row) :
    ∀ cl, buildConsents l = some cl →
      cl.length =
        (l.filter (fun r => decide (r.izinTuru.getD "" ≠ ""))).length ∧
      ∀ c ∈ cl, c.type ≠ "" ∧
        ∃ r ∈ l, r.izinTuru.getD "" ≠ "" ∧
          c.type = pyUpper (r.izinTuru.getD "") ∧
          c.recipient = format_phone_number r.alici := by
  induction l with
  | nil =>
    intro cl h
    simp only [buildConsents, Option.some.injEq] at h
    subst h
    simp
  | cons r rs ih =>
    intro cl h
    simp only [buildConsents] at h
    by_cases ht : r.izinTuru.getD "" = ""
    · rw [if_pos ht] at h
      obtain ⟨h1, h2⟩ := ih cl h
      refine ⟨?_, ?_⟩
      · rw [h1, List.filter_cons_of_neg (by simp [ht])]
      · intro c hc
        obtain ⟨hne, s, hs, hrest⟩ := h2 c hc
        exact ⟨hne, s, List.mem_cons_of_mem r hs, hrest⟩
    · rw [if_neg ht] at h
      rcases hp : parseConsentDate r.izinTarihi with _ | cd
      · rw [hp] at h
        simp at h
      · rw [hp] at h
        rcases hb : buildConsents rs with _ | cs
        · rw [hb] at h
          simp at h
        · rw [hb] at h
          have hcl : mkConsent r (r.izinTuru.getD "") cd :: cs = cl := by
            simpa using h
          subst hcl
          obtain ⟨h1, h2⟩ := ih cs hb
          refine ⟨?_, ?_⟩
          · rw [List.filter_cons_of_pos (by simp [ht])]
            simp [h1]
          · intro c hc
            rcases List.mem_cons.mp hc with rfl | hc
            · exact ⟨pyUpper_ne_empty ht, r, List.mem_cons_self r rs, ht,
                rfl, rfl⟩
            · obtain ⟨hne, s, hs, hrest⟩ := h2 c hc
              exact ⟨hne, s, List.mem_cons_of_mem r hs, hrest⟩

/-- Claim C4 counterexample: two rows with an empty (missing) consent
type are not dropped before deduplication: they reach the
deduplicator, which discards one as a duplicate and reports it in the
warning event (count 1), whereas dropping them before deduplication
would leave nothing to deduplicate and no duplicate to report. -/
theorem C4_counterexample :
    eventsOf (process_dataframe envPollNone [cexRowNoType, cexRowNoType]) =
      [prepInfoEvent, dupWarnEvent 1, noValidEvent] ∧
    specDropBeforeDedup [cexRowNoType, cexRowNoType] = [] ∧
    dedupKeepLast [cexRowNoType, cexRowNoType] = [cexRowNoType] := by decide

/-- Claim C4 (amended): each record whose consent type is empty after
coercion is dropped after deduplication, during payload construction:
it is never submitted and produces no error, and every surviving
submitted record has a non-empty, upper-cased consent type taken from
a deduplicated row. -/
theorem C4_theorem (rows : List Row) (cl : List Consent)
    (h : buildConsents (dedupKeepLast rows) = some cl) :
    cl.length = ((dedupKeepLast rows).filter
        (fun r => decide (r.izinTuru.getD "" ≠ ""))).length ∧
    ∀ c ∈ cl, c.type ≠ "" ∧
      ∃ r ∈ dedupKeepLast rows, r.izinTuru.getD "" ≠ "" ∧
        c.type = pyUpper (r.izinTuru.getD "") ∧
        c.recipient = format_phone_number r.alici :=
  buildConsents_spec (dedupKeepLast rows) cl h

/-- Witness for C4 at the mixed two-row input. -/
theorem C4_witness :
    buildConsents (dedupKeepLast [cexRowNoType, cexRowValid]) =
      some [cexConsentValid] ∧
    (([cexConsentValid] : List Consent).length =
      ((dedupKeepLast [cexRowNoType, cexRowValid]).filter
          (fun r => decide (r.izinTuru.getD "" ≠ ""))).length ∧
     ∀ c ∈ ([cexConsentValid] : List Consent), c.type ≠ "" ∧
       ∃ r ∈ dedupKeepLast [cexRowNoType, cexRowValid],
         r.izinTuru.getD "" ≠ "" ∧
         c.type = pyUpper (r.izinTuru.getD "") ∧
         c.recipient = format_phone_number r.alici) :=
  ⟨by decide,
   C4_theorem [cexRowNoType, cexRowValid] [cexConsentValid] (by decide)⟩

-- ===================================================================
-- C8: all-enqueue polling exhausts the attempt budget
-- ===================================================================

/-- Claim C8: if every polling attempt reports at least one item with
status ENQUEUE, the poller performs exactly the configured 12 attempts
(one status request each), then yields the timeout warning, and never
yields a success/failure tally for the batch. -/
theorem C8_theorem (env : Env) (recips : List String)
    (henq : ∀ j, j < 12 → ∃ items, env.statusResponses j = some items ∧
        ∃ it ∈ items, pyLower (it.status.getD "") = "enqueue") :
    pollLoop recips env 0 12 =
      attemptsRange env 0 12 ++ [Step.ev timeoutEvent] ∧
    (netOf (pollLoop recips env 0 12)).length = 12 ∧
    (∀ e ∈ eventsOf (pollLoop recips env 0 12), isTallyEvent e = false) := by
  have hfalse : ∀ j, j < 12 →
      pollCompleteResp (env.statusResponses (0 + j)) = false := by
    intro j hj
    rcases henq j hj with ⟨items, hit, it, hmem, hstat⟩
    rw [Nat.zero_add, hit]
    have hproc : isProcessingItem it = true := by
      simp [isProcessingItem, hstat]
    have hany : items.any isProcessingItem = true :=
      List.any_eq_true.mpr ⟨it, hmem, hproc⟩
    simp [pollCompleteResp, hany]
  have heq := pollLoop_timeout recips env 12 0 hfalse
  refine ⟨heq, ?_, ?_⟩
  · rw [heq, netOf_append, netOf_attemptsRange]
    simp [netOf]
  · intro e he
    rw [heq, eventsOf_append, eventsOf_attemptsRange] at he
    simp only [eventsOf, List.filterMap_cons, List.filterMap_nil] at he
    rcases List.mem_append.mp he with h | h
    · rcases List.mem_map.mp h with ⟨j, _, rfl⟩
      exact isTally_attemptInfo (0 + j)
    · rcases List.mem_singleton.mp h with rfl
      decide

/-- Witness for C8 at an environment whose every poll reports a single
ENQUEUE item. -/
theorem C8_witness :
    (envPollEnqueue.statusResponses 0 = some [⟨some "ENQUEUE", some 0, none⟩] ∧
     pyLower ((⟨some "ENQUEUE", some 0, none⟩ : StatusItem).status.getD "") =
       "enqueue") ∧
    (pollLoop [] envPollEnqueue 0 12 =
        attemptsRange envPollEnqueue 0 12 ++ [Step.ev timeoutEvent] ∧
     (netOf (pollLoop [] envPollEnqueue 0 12)).length = 12 ∧
     (∀ e ∈ eventsOf (pollLoop [] envPollEnqueue 0 12),
        isTallyEvent e = false)) :=
  ⟨⟨rfl, by decide⟩,
   C8_theorem envPollEnqueue []
     (fun j hj => ⟨[⟨some "ENQUEUE", some 0, none⟩], rfl,
       ⟨some "ENQUEUE", some 0, none⟩, by simp, by decide⟩)⟩

-- ===================================================================
-- C6: keep-last deduplication
-- ===================================================================

/-- Claim C6: deduplication by IdentityKey yields an output no longer
than the input; for every key the survivors among the output are
exactly the last input occurrence of that key; survivors keep their
relative input order (the output is a sublist of the input); and when
duplicates were discarded their count is reported as a warning event
after which the pipeline continues. -/
theorem C6_theorem (rows : List Row) (env : Env) (htok : env.tokenOk = true) :
    (dedupKeepLast rows).length ≤ rows.length ∧
    (dedupKeepLast rows).Sublist rows ∧
    (∀ k : String × Option String,
      (dedupKeepLast rows).filter (fun r => decide (rowKey r = k)) =
        ((rows.filter (fun r => decide (rowKey r = k))).getLast?).toList) ∧
    ((dedupKeepLast rows).length < rows.length →
      ∃ rest, rest ≠ [] ∧
        eventsOf (process_dataframe env rows) =
          prepInfoEvent ::
            dupWarnEvent (rows.length - (dedupKeepLast rows).length) :: rest) := by
  refine ⟨(dedupKeepLast_sublist rows).length_le, dedupKeepLast_sublist rows,
    fun k => dedupKeepLast_filter rows k, ?_⟩
  intro hlt
  rcases hb : buildConsents (dedupKeepLast rows) with _ | cl
  · refine ⟨[unexpectedErrorEvent], by simp, ?_⟩
    simp [process_dataframe, htok, hb, eventsOf, dedupWarnSteps, hlt]
  · by_cases hcl : cl.isEmpty = true
    · refine ⟨[noValidEvent], by simp, ?_⟩
      simp [process_dataframe, htok, hb, hcl, eventsOf, dedupWarnSteps, hlt]
    · rw [Bool.not_eq_true] at hcl
      refine ⟨sendingInfoEvent cl.length :: submitOkEvent env.requestId ::
        eventsOf (pollLoop (recipient_list_of (dedupKeepLast rows)) env 0 12),
        by simp, ?_⟩
      simp [process_dataframe, htok, hb, hcl, eventsOf, dedupWarnSteps, hlt]

/-- Witness for C6 at the spec §8 duplicate pair. -/
theorem C6_witness :
    envPollNone.tokenOk = true ∧
    ((dedupKeepLast [cexRowValidEarly, cexRowValid]).length ≤
        ([cexRowValidEarly, cexRowValid] : List Row).length ∧
     (dedupKeepLast [cexRowValidEarly, cexRowValid]).Sublist
        [cexRowValidEarly, cexRowValid] ∧
     (∀ k : String × Option String,
       (dedupKeepLast [cexRowValidEarly, cexRowValid]).filter
           (fun r => decide (rowKey r = k)) =
         ((([cexRowValidEarly, cexRowValid] : List Row).filter
             (fun r => decide (rowKey r = k))).getLast?).toList) ∧
     ((dedupKeepLast [cexRowValidEarly, cexRowValid]).length <
        ([cexRowValidEarly, cexRowValid] : List Row).length →
       ∃ rest, rest ≠ [] ∧
         eventsOf (process_dataframe envPollNone [cexRowValidEarly, cexRowValid]) =
           prepInfoEvent ::
             dupWarnEvent (([cexRowValidEarly, cexRowValid] : List Row).length -
               (dedupKeepLast [cexRowValidEarly, cexRowValid]).length) :: rest)) :=
  ⟨rfl, C6_theorem [cexRowValidEarly, cexRowValid] envPollNone rfl⟩

/-- Witness for C10 at a concrete item with a missing index. -/
theorem C10_witness :
    cexBadIndexItem.index = none ∧
    (itemRecipient ["5459419845"] cexBadIndexItem = "Bilinmeyen Alıcı" ∧
     failEvent ["5459419845"] cexBadIndexItem =
       { status := "error"
         message := "Alıcı " ++ "Bilinmeyen Alıcı" ++ " (Sıra #" ++
                    toString (cexBadIndexItem.index.getD (-1)) ++
                    ") başarısız: " ++
                    cexBadIndexItem.errorMessage.getD "Bilinmeyen hata."
         progress := none } ∧
     (reconcileCounts [cexBadIndexItem]).1 +
       (reconcileCounts [cexBadIndexItem]).2 = 1) :=
  ⟨rfl, C10_theorem ["5459419845"] cexBadIndexItem (Or.inl rfl)⟩

end IYS
